import Mathlib

/-!
Verification of the fs-cachebox storage engine (src/main.ts) against its
natural-language specification.  The TypeScript class CacheBox is shallowly
embedded: keys, filenames and payloads are lists of characters, the JS Map
holding the in-memory index is an association list in insertion order, the
cache directory is an association list from filename to content, and every
public operation is a pure function from an explicit state (plus the current
time in milliseconds) to a result and a new state.  Errors that the source
catches at an operation boundary are modelled by the operation returning its
failure value and recording the reported error in the state.
-/

namespace FsCachebox

/-- Keys, filenames and file payloads are modelled as lists of characters. -/
abbrev Str := List Char

/-- The character class matched by the regex token `\d` (ASCII digits). -/
def isDigitChar (c : Char) : Bool := decide ('0' ≤ c) && decide (c ≤ '9')

/-- JS line terminators: the characters that `.` in a regex never matches
(U+000A, U+000D, U+2028, U+2029). -/
def isLineTerminator (c : Char) : Bool :=
  decide (c.toNat = 0xA) || decide (c.toNat = 0xD) ||
  decide (c.toNat = 0x2028) || decide (c.toNat = 0x2029)

/-- Bytes taken by one character in UTF-8; `Buffer.byteLength(s, "utf8")`
is the sum of these over the string. -/
def utf8Size (c : Char) : Nat :=
  if c.toNat < 0x80 then 1
  else if c.toNat < 0x800 then 2
  else if c.toNat < 0x10000 then 3
  else 4

/-- `Buffer.byteLength(s, "utf8")` of a string. -/
def utf8Length (s : Str) : Nat := (s.map utf8Size).sum

/-- UTF-16 code units of one character; the JS `length` of a string is the
sum of these. -/
def utf16Units (c : Char) : Nat := if c.toNat < 0x10000 then 1 else 2

/-- The JS `length` of a string (UTF-16 code units). -/
def jsLength (s : Str) : Nat := (s.map utf16Units).sum

/-- `key.includes("..")`. -/
def hasDotDot : Str → Bool
  | '.' :: '.' :: _ => true
  | _ :: rest => hasDotDot rest
  | [] => false

/-- One character of the class `[<>:"/\\|?*\x00-\x1f]` from validateKey. -/
def invalidChar (c : Char) : Bool :=
  decide (c = '<') || decide (c = '>') || decide (c = ':') || decide (c = '"') ||
  decide (c = '/') || decide (c = '\\') || decide (c = '|') || decide (c = '?') ||
  decide (c = '*') || decide (c.toNat ≤ 0x1f)

/-- ASCII upper-casing, modelling the case-insensitive flag of the reserved
name regex on the names it can actually mention. -/
def toUpperAscii (c : Char) : Char :=
  if 'a' ≤ c ∧ c ≤ 'z' then Char.ofNat (c.toNat - 32) else c

/-- The regex `^(CON|PRN|AUX|NUL|COM[1-9]|LPT[1-9])$` with the
case-insensitive flag. -/
def isReservedName (key : Str) : Bool :=
  let u := key.map toUpperAscii
  decide (u = ['C', 'O', 'N']) || decide (u = ['P', 'R', 'N']) ||
  decide (u = ['A', 'U', 'X']) || decide (u = ['N', 'U', 'L']) ||
  (match u with
   | [a, b, m, d] =>
     (decide (a = 'C') && decide (b = 'O') && decide (m = 'M') ||
      decide (a = 'L') && decide (b = 'P') && decide (m = 'T')) &&
     decide ('1' ≤ d) && decide (d ≤ '9')
   | _ => false)

/-- CacheBox.validateKey: guards every public operation.  The emptiness test
covers both the falsiness test on the argument and the explicit length-zero
test of the source; the length bound is the JS string length. -/
def validateKey (key : Str) : Bool :=
  if key.isEmpty then false
  else if 255 < jsLength key then false
  else if hasDotDot key || key.contains '/' || key.contains '\\' then false
  else if key.any invalidChar then false
  else if isReservedName key then false
  else true

/-- Decimal digit characters of a natural number, most significant first,
written with explicit fuel so that it is structurally recursive (any fuel
above the number itself gives the exact decimal representation). -/
def natCharsCore (fuel : Nat) (n : Nat) : Str :=
  match fuel with
  | 0 => []
  | fuel + 1 =>
    if n < 10 then [Nat.digitChar n]
    else natCharsCore fuel (n / 10) ++ [Nat.digitChar (n % 10)]

/-- The decimal representation a JS template literal produces for a
natural number, as in the filename `key_ttl`. -/
def natChars (n : Nat) : Str := natCharsCore (n + 1) n

/-- `Number` applied to a string of decimal digits. -/
def digitsToNat (ds : Str) : Nat :=
  ds.foldl (fun acc c => 10 * acc + (c.toNat - 48)) 0

/-- CacheBox.generateFileName: the encoded filename of an entry. -/
def generateFileName (key : Str) (ttl : Nat) (compressed : Bool) : Str :=
  key ++ '_' :: natChars ttl ++ (if compressed then ['_', 'c'] else [])

/-- The decoded metadata triple of CacheBox.parseFileName. -/
structure ParsedName where
  key : Str
  ttl : Nat
  compressed : Bool
deriving DecidableEq, Repr

/-- Matching of the regex suffix `\d+(_c)?$` against the text after a
candidate separator underscore: a greedy digit run must be followed by
nothing or by the literal `_c`.  (If the greedy digit run leaves any other
tail, backtracking the digit run cannot help: the shortened tail would begin
with a digit, which is neither the end of input nor an underscore.) -/
def splitTtlPart (rest : Str) : Option (Nat × Bool) :=
  if (rest.takeWhile isDigitChar).isEmpty then none
  else if (rest.dropWhile isDigitChar).isEmpty then
    some (digitsToNat (rest.takeWhile isDigitChar), false)
  else if rest.dropWhile isDigitChar = ['_', 'c'] then
    some (digitsToNat (rest.takeWhile isDigitChar), true)
  else none

/-- Backtracking search of `^(.+)_(\d+)(_c)?$`: the greedy `(.+)` means the
rightmost separator underscore whose tail matches wins, and every character
captured by `(.+)` must be matched by `.`, i.e. must not be a line
terminator; the captured group must be non-empty.  `pre` accumulates the
characters to the left of the position under consideration; deeper (more
rightward) splits are tried first. -/
def parseAux (pre : Str) : Str → Option ParsedName
  | [] => none
  | c :: rest =>
    match parseAux (pre ++ [c]) rest with
    | some r => some r
    | none =>
      if c = '_' ∧ pre ≠ [] ∧ pre.all (fun ch => !isLineTerminator ch) = true then
        (splitTtlPart rest).map (fun tc => ⟨pre, tc.1, tc.2⟩)
      else none

/-- CacheBox.parseFileName: decode a filename into its metadata triple via
the anchored regex `^(.+)_(\d+)(_c)?$` (null on no match). -/
def parseFileName (fileName : Str) : Option ParsedName :=
  parseAux [] fileName

/-- The concrete key used to exhibit the decoding gap: `a` followed by
U+2028 LINE SEPARATOR, which validateKey accepts but the regex atom `.`
of parseFileName cannot match. -/
def ambiguousKey : Str := ['a', Char.ofNat 0x2028]

theorem digitChar_isDigit : ∀ m, m < 10 → isDigitChar (Nat.digitChar m) = true := by
  decide

theorem digitChar_val : ∀ m, m < 10 → (Nat.digitChar m).toNat - 48 = m := by
  decide

theorem natCharsCore_ne_nil (fuel n : Nat) (h : n < fuel) : natCharsCore fuel n ≠ [] := by
  cases fuel with
  | zero => omega
  | succ f =>
    unfold natCharsCore
    by_cases h10 : n < 10
    · simp [h10]
    · simp [h10]

theorem natCharsCore_digits (fuel : Nat) : ∀ n, n < fuel →
    ∀ c ∈ natCharsCore fuel n, isDigitChar c = true := by
  induction fuel with
  | zero => intro n h; omega
  | succ f ih =>
    intro n h c hc
    unfold natCharsCore at hc
    by_cases h10 : n < 10
    · rw [if_pos h10] at hc
      simp only [List.mem_singleton] at hc
      subst hc
      exact digitChar_isDigit n h10
    · rw [if_neg h10] at hc
      rcases List.mem_append.mp hc with hc | hc
      · have hlt : n / 10 < f := by
          have := Nat.div_lt_self (show 0 < n by omega) (show 1 < 10 by omega)
          omega
        exact ih (n / 10) hlt c hc
      · simp only [List.mem_singleton] at hc
        subst hc
        exact digitChar_isDigit _ (Nat.mod_lt _ (by omega))

theorem digitsToNat_append (D : Str) (d : Char) :
    digitsToNat (D ++ [d]) = 10 * digitsToNat D + (d.toNat - 48) := by
  simp [digitsToNat, List.foldl_append]

theorem digitsToNat_natCharsCore (fuel : Nat) : ∀ n, n < fuel →
    digitsToNat (natCharsCore fuel n) = n := by
  induction fuel with
  | zero => intro n h; omega
  | succ f ih =>
    intro n h
    unfold natCharsCore
    by_cases h10 : n < 10
    · rw [if_pos h10]
      have := digitChar_val n h10
      simp [digitsToNat]
      omega
    · have hlt : n / 10 < f := by
        have := Nat.div_lt_self (show 0 < n by omega) (show 1 < 10 by omega)
        omega
      rw [if_neg h10, digitsToNat_append, ih (n / 10) hlt,
        digitChar_val _ (Nat.mod_lt _ (by omega))]
      omega

theorem natChars_ne_nil (n : Nat) : natChars n ≠ [] :=
  natCharsCore_ne_nil _ _ (Nat.lt_succ_self n)

theorem natChars_digits (n : Nat) : ∀ c ∈ natChars n, isDigitChar c = true :=
  natCharsCore_digits _ _ (Nat.lt_succ_self n)

theorem digitsToNat_natChars (n : Nat) : digitsToNat (natChars n) = n :=
  digitsToNat_natCharsCore _ _ (Nat.lt_succ_self n)

theorem isDigitChar_ne_underscore {c : Char} (h : isDigitChar c = true) : c ≠ '_' := by
  intro he
  subst he
  exact absurd h (by decide)

theorem takeWhile_append_of_all {p : Char → Bool} (D S : Str)
    (h : ∀ c ∈ D, p c = true) : (D ++ S).takeWhile p = D ++ S.takeWhile p := by
  induction D with
  | nil => simp
  | cons d D ih =>
    have hd := h d (by simp)
    have ihh := ih (fun c hc => h c (by simp [hc]))
    simp [List.takeWhile_cons, hd, ihh]

theorem dropWhile_append_of_all {p : Char → Bool} (D S : Str)
    (h : ∀ c ∈ D, p c = true) : (D ++ S).dropWhile p = S.dropWhile p := by
  induction D with
  | nil => simp
  | cons d D ih =>
    have hd := h d (by simp)
    have ihh := ih (fun c hc => h c (by simp [hc]))
    simp [List.dropWhile_cons, hd, ihh]

theorem parseAux_all_digits (D : Str) (hD : ∀ c ∈ D, isDigitChar c = true) :
    ∀ pre, parseAux pre D = none := by
  induction D with
  | nil => intro pre; rfl
  | cons d D ih =>
    intro pre
    have hd : d ≠ '_' := isDigitChar_ne_underscore (hD d (by simp))
    have ihh := ih (fun c hc => hD c (by simp [hc])) (pre ++ [d])
    simp only [parseAux, List.append_eq]
    simp [ihh, hd]

theorem parseAux_digits_underscore_c (D : Str) (hD : ∀ c ∈ D, isDigitChar c = true) :
    ∀ pre, parseAux pre (D ++ ['_', 'c']) = none := by
  induction D with
  | nil =>
    intro pre
    have h1 : isDigitChar 'c' = false := by decide
    simp [parseAux, splitTtlPart, h1]
  | cons d D ih =>
    intro pre
    have hd : d ≠ '_' := isDigitChar_ne_underscore (hD d (by simp))
    have ihh := ih (fun c hc => hD c (by simp [hc])) (pre ++ [d])
    simp only [List.cons_append, parseAux, List.append_eq]
    simp [ihh, hd]

theorem splitTtlPart_eq (D S : Str) (cFlag : Bool)
    (hD : ∀ c ∈ D, isDigitChar c = true) (hDne : D ≠ [])
    (hS : (cFlag = true ∧ S = ['_', 'c']) ∨ (cFlag = false ∧ S = [])) :
    splitTtlPart (D ++ S) = some (digitsToNat D, cFlag) := by
  have hu : isDigitChar '_' = false := by decide
  have htake : (D ++ S).takeWhile isDigitChar = D := by
    rw [takeWhile_append_of_all D S hD]
    rcases hS with ⟨_, rfl⟩ | ⟨_, rfl⟩
    · simp [List.takeWhile_cons, hu]
    · simp
  have hdrop : (D ++ S).dropWhile isDigitChar = S := by
    rw [dropWhile_append_of_all D S hD]
    rcases hS with ⟨_, rfl⟩ | ⟨_, rfl⟩
    · simp [List.dropWhile_cons, hu]
    · simp
  have hDe : D.isEmpty = false := by
    cases D with
    | nil => exact absurd rfl hDne
    | cons a l => rfl
  rcases hS with ⟨rfl, rfl⟩ | ⟨rfl, rfl⟩
  · simp [splitTtlPart, htake, hdrop, hDe]
  · rw [List.append_nil] at htake hdrop
    simp [splitTtlPart, htake, hdrop, hDe]

theorem parseAux_at_sep (k D S : Str) (cFlag : Bool)
    (hk : k ≠ []) (hclean : k.all (fun ch => !isLineTerminator ch) = true)
    (hD : ∀ c ∈ D, isDigitChar c = true) (hDne : D ≠ [])
    (hS : (cFlag = true ∧ S = ['_', 'c']) ∨ (cFlag = false ∧ S = [])) :
    parseAux k ('_' :: (D ++ S)) = some ⟨k, digitsToNat D, cFlag⟩ := by
  have hinner : parseAux (k ++ ['_']) (D ++ S) = none := by
    rcases hS with ⟨_, rfl⟩ | ⟨_, rfl⟩
    · exact parseAux_digits_underscore_c D hD _
    · rw [List.append_nil]
      exact parseAux_all_digits D hD _
  have hsplit : splitTtlPart (D ++ S) = some (digitsToNat D, cFlag) :=
    splitTtlPart_eq D S cFlag hD hDne hS
  simp only [parseAux, List.append_eq]
  simp [hinner, hsplit, hk, hclean]

theorem parseAux_extend (k : Str) : ∀ pre suffix r,
    parseAux (pre ++ k) suffix = some r → parseAux pre (k ++ suffix) = some r := by
  induction k with
  | nil =>
    intro pre suffix r h
    simpa using h
  | cons x k ih =>
    intro pre suffix r h
    have hin : parseAux (pre ++ [x] ++ k) suffix = some r := by
      rw [List.append_assoc, List.singleton_append]
      exact h
    have hrec := ih (pre ++ [x]) suffix r hin
    simp only [List.cons_append, parseAux, List.append_eq]
    simp [hrec]

theorem validateKey_ne_nil {k : Str} (h : validateKey k = true) : k ≠ [] := by
  intro he
  subst he
  exact absurd h (by decide)

/-- C1 (amended): for every key accepted by the validator that contains no
line-terminator character (U+2028 and U+2029 are the only such characters
the validator accepts), every absolute expiry and every compressed flag,
decoding the generated filename reproduces exactly the original triple; in
particular this holds for keys that themselves end in an underscore
followed by digits, since the greedy capture assigns the final digit run
to the expiry field. -/
theorem C1_filename_roundtrip (k : Str) (t : Nat) (c : Bool)
    (hv : validateKey k = true)
    (hlt : ∀ ch ∈ k, isLineTerminator ch = false) :
    parseFileName (generateFileName k t c) = some ⟨k, t, c⟩ := by
  have hk : k ≠ [] := validateKey_ne_nil hv
  have hclean : k.all (fun ch => !isLineTerminator ch) = true := by
    rw [List.all_eq_true]
    intro ch hch
    simp [hlt ch hch]
  unfold parseFileName generateFileName
  rw [List.append_assoc, List.cons_append]
  apply parseAux_extend k []
  simp only [List.nil_append]
  have hmain := parseAux_at_sep k (natChars t) (if c then ['_', 'c'] else []) c hk hclean
    (natChars_digits t) (natChars_ne_nil t)
    (by cases c <;> simp)
  rw [digitsToNat_natChars] at hmain
  exact hmain

/-- C1 counterexample: the key consisting of `a` followed by U+2028 LINE
SEPARATOR is accepted by validateKey, yet parseFileName returns null on the
filename generated for it, because the regex atom `.` never matches a line
terminator; so the round-trip does not hold for every valid key. -/
theorem C1_filename_roundtrip_cex :
    validateKey ambiguousKey = true ∧
    parseFileName (generateFileName ambiguousKey 5 false) = none := by
  decide

/-- Witness for C1: the round-trip theorem applied to the key `a_7`, which
itself ends in an underscore followed by a digit, with expiry 3 and the
compressed flag set. -/
theorem C1_filename_roundtrip_witness :
    validateKey ['a', '_', '7'] = true ∧
    parseFileName (generateFileName ['a', '_', '7'] 3 true) =
      some ⟨['a', '_', '7'], 3, true⟩ :=
  ⟨by decide, C1_filename_roundtrip ['a', '_', '7'] 3 true (by decide) (by decide)⟩

/-- The metadata record stored in the in-memory Map (interface CacheEntry):
`ttl` is the absolute expiry in milliseconds with 0 meaning never. -/
structure CacheEntry where
  ttl : Nat
  compressed : Bool
  size : Nat
  created : Nat
  accessed : Nat
deriving DecidableEq, Repr

/-- The cumulative counters of the private stats record. -/
structure Stats where
  hits : Nat
  misses : Nat
  sets : Nat
  deletes : Nat
  errors : Nat
deriving DecidableEq, Repr

def Stats.init : Stats := ⟨0, 0, 0, 0, 0⟩

/-- The configuration fields of CacheBox that the modelled operations
consult, with the defaults applied by the constructor.  `maxSize` is the
optional maximum entry count (unset by default); a configured value of 0 is
impossible because the constructor only applies a truthy option, but the
truthiness test is kept where the source performs it. -/
structure Config where
  enableCompression : Bool
  compressionThreshold : Nat
  maxSize : Option Nat
  maxFileSize : Nat
  defaultTTL : Nat
deriving DecidableEq, Repr

def Config.mk0 : Config := ⟨false, 1024, none, 50 * 1024 * 1024, 0⟩

/-- The events CacheBox emits, with the payload fields the claims need. -/
inductive Event where
  | change (operation : String) (key : Str)
  | errorEv (operation : String) (key : Option Str)
  | expire (key : Str) (ttl : Nat)
  | cleanupEv (expired : Nat) (removed : Nat)
  | ready (entriesLoaded : Nat)
  | clearEv (entriesRemoved : Nat)
deriving DecidableEq, Repr

/-- JS Map lookup (`Map.get`); keys occur at most once, in insertion
order. -/
def mapGet (k : Str) (m : List (Str × CacheEntry)) : Option CacheEntry :=
  (m.find? (fun p => p.1 = k)).map Prod.snd

/-- JS `Map.has`. -/
def mapHas (k : Str) (m : List (Str × CacheEntry)) : Bool :=
  m.any (fun p => p.1 = k)

/-- JS `Map.set`: an existing key keeps its position, a new key is appended
at the end. -/
def mapSet (k : Str) (v : CacheEntry) (m : List (Str × CacheEntry)) :
    List (Str × CacheEntry) :=
  if m.any (fun p => p.1 = k) then m.map (fun p => if p.1 = k then (k, v) else p)
  else m ++ [(k, v)]

/-- JS `Map.delete`. -/
def mapDelete (k : Str) (m : List (Str × CacheEntry)) : List (Str × CacheEntry) :=
  m.filter (fun p => ¬ p.1 = k)

/-- The cache directory as filename-to-content association; `readFileSync`
of an existing file. -/
def fsRead (name : Str) (fs : List (Str × Str)) : Option Str :=
  (fs.find? (fun p => p.1 = name)).map Prod.snd

/-- `existsSync` inside the cache directory. -/
def fsExists (name : Str) (fs : List (Str × Str)) : Bool :=
  fs.any (fun p => p.1 = name)

/-- `writeFileSync`, overwriting in place or creating the file. -/
def fsWrite (name content : Str) (fs : List (Str × Str)) : List (Str × Str) :=
  if fs.any (fun p => p.1 = name) then
    fs.map (fun p => if p.1 = name then (name, content) else p)
  else fs ++ [(name, content)]

/-- `rmSync` on a single file. -/
def fsRemove (name : Str) (fs : List (Str × Str)) : List (Str × Str) :=
  fs.filter (fun p => ¬ p.1 = name)

/-- The full observable state of a CacheBox instance: the in-memory index,
the cache directory contents, the stats counters, the emitted events, and
whether an error listener is registered (emitError only emits the error
event when `listenerCount("error") > 0`). -/
structure CacheState where
  cache : List (Str × CacheEntry)
  files : List (Str × Str)
  stats : Stats
  events : List Event
  hasErrorListener : Bool
deriving DecidableEq, Repr

/-- A freshly constructed state before load runs. -/
def initState (hasErrorListener : Bool) : CacheState :=
  ⟨[], [], Stats.init, [], hasErrorListener⟩

/-- CacheBox.emitError: bump the errors counter, and emit the error event
only when a listener is registered. -/
def emitError (s : CacheState) (operation : String) (key : Option Str) : CacheState :=
  let s1 : CacheState := { s with stats := { s.stats with errors := s.stats.errors + 1 } }
  if s1.hasErrorListener then { s1 with events := s1.events ++ [.errorEv operation key] }
  else s1

/-- The serialization environment: the external collaborators of serialize
and deserialize.  `stringify`/`parseVal` are the flatted encoder and decoder
(`none` models a thrown error), and `gzipB64`/`gunzipB64` model gzip
composed with base64 at the configured level (`none` models a thrown
error). -/
structure SerEnv (V : Type) where
  stringify : V → Option Str
  parseVal : Str → Option V
  gzipB64 : Str → Option Str
  gunzipB64 : Str → Option Str

/-- The error kinds serialize can raise (both leave serialize as a thrown
CacheError caught by the calling operation). -/
inductive SerError where
  | sizeLimit
  | serializationFailure
deriving DecidableEq, Repr

/-- The result record of CacheBox.serialize. -/
structure Serialized where
  data : Str
  compressed : Bool
  size : Nat
deriving DecidableEq, Repr

/-- CacheBox.serialize: stringify, enforce the maximum file size on the
UTF-8 byte length, then compress when enabled and above the threshold,
keeping the compressed form only when its JS string length is strictly
smaller than the serialized text's; a gzip failure falls back to the
uncompressed form. -/
def serialize {V : Type} (cfg : Config) (env : SerEnv V) (value : V) :
    Except SerError Serialized :=
  match env.stringify value with
  | none => .error .serializationFailure
  | some serialized =>
    if cfg.maxFileSize < utf8Length serialized then .error .sizeLimit
    else if cfg.enableCompression && decide (cfg.compressionThreshold < utf8Length serialized) then
      match env.gzipB64 serialized with
      | some b64 =>
        if jsLength b64 < jsLength serialized then .ok ⟨b64, true, jsLength b64⟩
        else .ok ⟨serialized, false, utf8Length serialized⟩
      | none => .ok ⟨serialized, false, utf8Length serialized⟩
    else .ok ⟨serialized, false, utf8Length serialized⟩

/-- CacheBox.deserialize: base64-decode and gunzip when the compressed flag
is set, then parse; `none` models the thrown CacheError. -/
def deserialize {V : Type} (env : SerEnv V) (data : Str) (compressed : Bool) :
    Option V :=
  if compressed then (env.gunzipB64 data).bind env.parseVal
  else env.parseVal data

/-- The expiry test `entry.ttl !== 0 && entry.ttl < now` used by has, get
and performCleanup. -/
def isExpired (e : CacheEntry) (now : Nat) : Bool :=
  decide (e.ttl ≠ 0) && decide (e.ttl < now)

/-- CacheBox.delete: an invalid key or an absent key short-circuits (the
former without reporting an error); otherwise remove the entry's file if it
exists, drop the Map entry, bump deletes and announce the change. -/
def deleteOp (s : CacheState) (key : Str) : Bool × CacheState :=
  if validateKey key = false then (false, s)
  else
    match mapGet key s.cache with
    | none => (true, s)
    | some entry =>
      let fileName := generateFileName key entry.ttl entry.compressed
      let files1 := if fsExists fileName s.files then fsRemove fileName s.files else s.files
      (true, { s with files := files1,
                      cache := mapDelete key s.cache,
                      stats := { s.stats with deletes := s.stats.deletes + 1 },
                      events := s.events ++ [.change "delete" key] })

/-- CacheBox.has. -/
def hasOp (s : CacheState) (now : Nat) (key : Str) : Bool × CacheState :=
  if validateKey key = false then (false, emitError s "has" (some key))
  else
    match mapGet key s.cache with
    | none => (false, s)
    | some entry =>
      if isExpired entry now then (false, (deleteOp s key).2)
      else (true, s)

/-- CacheBox.get. -/
def getOp {V : Type} (env : SerEnv V) (s : CacheState) (now : Nat) (key : Str) :
    Option V × CacheState :=
  if validateKey key = false then (none, emitError s "get" (some key))
  else
    match mapGet key s.cache with
    | none => (none, { s with stats := { s.stats with misses := s.stats.misses + 1 } })
    | some entry =>
      if isExpired entry now then
        let s1 := (deleteOp s key).2
        (none, { s1 with stats := { s1.stats with misses := s1.stats.misses + 1 } })
      else
        match fsRead (generateFileName key entry.ttl entry.compressed) s.files with
        | none =>
          (none, { s with cache := mapDelete key s.cache,
                          stats := { s.stats with misses := s.stats.misses + 1 } })
        | some content =>
          match deserialize env content entry.compressed with
          | none =>
            let s1 := emitError s "get" (some key)
            (none, { s1 with stats := { s1.stats with misses := s1.stats.misses + 1 } })
          | some value =>
            (some value,
             { s with cache := mapSet key { entry with accessed := now } s.cache,
                      stats := { s.stats with hits := s.stats.hits + 1 } })

/-- The truthiness-guarded size test `this._maxSize && this._cache.size >
this._maxSize`. -/
def overMaxSize (cfg : Config) (n : Nat) : Bool :=
  match cfg.maxSize with
  | some m => decide (m ≠ 0) && decide (m < n)
  | none => false

/-- Stable insertion of one entry into a list sorted by ascending accessed
time: an incoming element goes before the first strictly-later element but
after equal ones coming earlier in the original order. -/
def insertByAccessed (x : Str × CacheEntry) :
    List (Str × CacheEntry) → List (Str × CacheEntry)
  | [] => [x]
  | y :: ys =>
    if x.2.accessed ≤ y.2.accessed then x :: y :: ys
    else y :: insertByAccessed x ys

/-- The stable ascending sort `Array.from(entries).sort((a, b) =>
a.accessed - b.accessed)` (Array.prototype.sort is stable). -/
def sortByAccessed : List (Str × CacheEntry) → List (Str × CacheEntry)
  | [] => []
  | x :: xs => insertByAccessed x (sortByAccessed xs)

/-- The expire pass of performCleanup: iterate over the entries present at
the start of the pass, and for each expired one call delete, count it and
announce an expire event (the iteration only ever deletes the entry under
consideration, so iterating the original snapshot matches the live JS Map
iterator). -/
def expirePass (s : CacheState) (now : Nat) : CacheState × Nat :=
  s.cache.foldl (fun acc p =>
    if isExpired p.2 now then
      let s1 := (deleteOp acc.1 p.1).2
      ({ s1 with events := s1.events ++ [.expire p.1 p.2.ttl] }, acc.2 + 1)
    else acc) (s, 0)

/-- The LRU pass of performCleanup: when the size limit is exceeded, sort
the remaining entries by ascending accessed time and delete the oldest
`size - maxSize` of them, counting each delete call. -/
def lruPass (cfg : Config) (s : CacheState) : CacheState × Nat :=
  if overMaxSize cfg s.cache.length then
    ((sortByAccessed s.cache).take (s.cache.length - cfg.maxSize.getD 0)).foldl
      (fun acc p => ((deleteOp acc.1 p.1).2, acc.2 + 1)) (s, 0)
  else (s, 0)

/-- CacheBox.performCleanup: the expire pass, then the LRU pass, then the
aggregate cleanup event when anything was removed. -/
def performCleanup (cfg : Config) (s : CacheState) (now : Nat) : CacheState :=
  if 0 < (expirePass s now).2 ∨ 0 < (lruPass cfg (expirePass s now).1).2 then
    { (lruPass cfg (expirePass s now).1).1 with
      events := (lruPass cfg (expirePass s now).1).1.events ++
        [.cleanupEv (expirePass s now).2 (lruPass cfg (expirePass s now).1).2] }
  else (lruPass cfg (expirePass s now).1).1

/-- CacheBox.set. -/
def setOp {V : Type} (cfg : Config) (env : SerEnv V) (s : CacheState) (now : Nat)
    (key : Str) (value : V) (ttl : Option Nat) : Bool × CacheState :=
  if validateKey key = false then (false, emitError s "set" (some key))
  else
    match serialize cfg env value with
    | .error _ => (false, emitError s "set" (some key))
    | .ok ser =>
      let effectiveTTL := ttl.getD cfg.defaultTTL
      let fileTtl := if effectiveTTL = 0 then 0 else now + effectiveTTL
      let fileName := generateFileName key fileTtl ser.compressed
      let s1 := if mapHas key s.cache then (deleteOp s key).2 else s
      let s2 : CacheState :=
        { s1 with files := fsWrite fileName ser.data s1.files,
                  cache := mapSet key ⟨fileTtl, ser.compressed, ser.size, now, now⟩ s1.cache,
                  stats := { s1.stats with sets := s1.stats.sets + 1 },
                  events := s1.events ++ [.change "set" key] }
      if overMaxSize cfg s2.cache.length then (true, performCleanup cfg s2 now)
      else (true, s2)

/-- The record returned by the public cleanup method. -/
structure CleanupResult where
  expired : Nat
  removed : Nat
deriving DecidableEq, Repr

/-- CacheBox.cleanup (manual trigger): runs performCleanup and returns a
literal 0 in the expired field and the net entry-count decrease in the
removed field. -/
def cleanupOp (cfg : Config) (s : CacheState) (now : Nat) :
    CleanupResult × CacheState :=
  (⟨0, s.cache.length - (performCleanup cfg s now).cache.length⟩,
   performCleanup cfg s now)

/-- CacheBox.deleteAsync: like delete but `rm` is attempted unconditionally
with its failure swallowed, and the change event names the async
operation. -/
def deleteAsyncOp (s : CacheState) (key : Str) : Bool × CacheState :=
  if validateKey key = false then (false, s)
  else
    match mapGet key s.cache with
    | none => (true, s)
    | some entry =>
      (true, { s with files := fsRemove (generateFileName key entry.ttl entry.compressed) s.files,
                      cache := mapDelete key s.cache,
                      stats := { s.stats with deletes := s.stats.deletes + 1 },
                      events := s.events ++ [.change "deleteAsync" key] })

/-- CacheBox.getAsync: identical to get except that expiry removal goes
through deleteAsync, the missing-file test is the failing `stat`, and
errors are reported under the async operation name. -/
def getAsyncOp {V : Type} (env : SerEnv V) (s : CacheState) (now : Nat) (key : Str) :
    Option V × CacheState :=
  if validateKey key = false then (none, emitError s "getAsync" (some key))
  else
    match mapGet key s.cache with
    | none => (none, { s with stats := { s.stats with misses := s.stats.misses + 1 } })
    | some entry =>
      if isExpired entry now then
        let s1 := (deleteAsyncOp s key).2
        (none, { s1 with stats := { s1.stats with misses := s1.stats.misses + 1 } })
      else
        match fsRead (generateFileName key entry.ttl entry.compressed) s.files with
        | none =>
          (none, { s with cache := mapDelete key s.cache,
                          stats := { s.stats with misses := s.stats.misses + 1 } })
        | some content =>
          match deserialize env content entry.compressed with
          | none =>
            let s1 := emitError s "getAsync" (some key)
            (none, { s1 with stats := { s1.stats with misses := s1.stats.misses + 1 } })
          | some value =>
            (some value,
             { s with cache := mapSet key { entry with accessed := now } s.cache,
                      stats := { s.stats with hits := s.stats.hits + 1 } })

/-- CacheBox.setAsync: identical to set with async delete of the replaced
entry and the async operation name. -/
def setAsyncOp {V : Type} (cfg : Config) (env : SerEnv V) (s : CacheState) (now : Nat)
    (key : Str) (value : V) (ttl : Option Nat) : Bool × CacheState :=
  if validateKey key = false then (false, emitError s "setAsync" (some key))
  else
    match serialize cfg env value with
    | .error _ => (false, emitError s "setAsync" (some key))
    | .ok ser =>
      let effectiveTTL := ttl.getD cfg.defaultTTL
      let fileTtl := if effectiveTTL = 0 then 0 else now + effectiveTTL
      let fileName := generateFileName key fileTtl ser.compressed
      let s1 := if mapHas key s.cache then (deleteAsyncOp s key).2 else s
      let s2 : CacheState :=
        { s1 with files := fsWrite fileName ser.data s1.files,
                  cache := mapSet key ⟨fileTtl, ser.compressed, ser.size, now, now⟩ s1.cache,
                  stats := { s1.stats with sets := s1.stats.sets + 1 },
                  events := s1.events ++ [.change "setAsync" key] }
      if overMaxSize cfg s2.cache.length then (true, performCleanup cfg s2 now)
      else (true, s2)

/-- A file found in the cache directory during startup, with the stat
fields syncMemoryCache reads. -/
structure DiskFile where
  name : Str
  content : Str
  ctimeMs : Nat
  atimeMs : Nat
  sizeBytes : Nat
deriving DecidableEq, Repr

/-- The possible outcomes of the filesystem calls made during
initialization: a readable directory listing, a failing mkdir, or a
failing readdir. -/
inductive InitFs where
  | ok (files : List DiskFile)
  | mkdirFails
  | readdirFails
deriving DecidableEq, Repr

/-- CacheBox.syncMemoryCache on a readable directory: decode each filename,
delete expired files, index the rest under the decoded key (a duplicate
decoded key overwrites in place, as Map.set does).  Returns the rebuilt
index and the files left on disk. -/
def syncMemoryCache (files : List DiskFile) (now : Nat) :
    List (Str × CacheEntry) × List DiskFile :=
  files.foldl (fun acc f =>
    match parseFileName f.name with
    | none => (acc.1, acc.2 ++ [f])
    | some p =>
      if p.ttl ≠ 0 ∧ p.ttl < now then (acc.1, acc.2)
      else (mapSet p.key ⟨p.ttl, p.compressed, f.sizeBytes, f.ctimeMs, f.atimeMs⟩ acc.1,
            acc.2 ++ [f])) ([], [])

/-- CacheBox.load: the body is one try/catch; a failing mkdir, or the
CacheError a failing readdir makes syncMemoryCache throw, is caught right
here and handed to emitError under the initialization operation name —
nothing is re-thrown.  On success the index is rebuilt and the ready event
is announced. -/
def loadOp (s : CacheState) (fs : InitFs) (now : Nat) : CacheState :=
  match fs with
  | .mkdirFails => emitError s "initialization" none
  | .readdirFails => emitError s "initialization" none
  | .ok files =>
    let r := syncMemoryCache files now
    { s with cache := r.1,
             files := r.2.map (fun f => (f.name, f.content)),
             events := s.events ++ [.ready r.1.length] }

/-- The CacheBox constructor after option handling: a single call to load.
Since every failure path inside load ends in emitError rather than a
throw, the Except layer recording what escapes to the caller is always
`ok`. -/
def constructorResult (fs : InitFs) (now : Nat) (hasErrorListener : Bool) :
    Except String CacheState :=
  .ok (loadOp (initState hasErrorListener) fs now)

/-- A trivial serialization environment over the unit value type whose
encoded form is the one-character string `x`; used to instantiate theorems
at concrete inputs. -/
def envU : SerEnv Unit :=
  ⟨fun _ => some ['x'], fun _ => some (), fun _ => none, fun _ => none⟩

theorem emitError_cache (s : CacheState) (op : String) (k : Option Str) :
    (emitError s op k).cache = s.cache := by
  cases hb : s.hasErrorListener <;> simp [emitError, hb]

theorem emitError_files (s : CacheState) (op : String) (k : Option Str) :
    (emitError s op k).files = s.files := by
  cases hb : s.hasErrorListener <;> simp [emitError, hb]

theorem emitError_errors (s : CacheState) (op : String) (k : Option Str) :
    (emitError s op k).stats.errors = s.stats.errors + 1 := by
  cases hb : s.hasErrorListener <;> simp [emitError, hb]

theorem mapGet_mapSet_self (k : Str) (v : CacheEntry) (m : List (Str × CacheEntry)) :
    mapGet k (mapSet k v m) = some v := by
  induction m with
  | nil =>
    unfold mapSet
    rw [if_neg (by simp)]
    unfold mapGet
    rw [List.nil_append, List.find?_cons_of_pos _ (by simp)]
    rfl
  | cons p m ih =>
    unfold mapSet at ih ⊢
    by_cases hp : p.1 = k
    · rw [if_pos (by simp [hp])]
      simp only [List.map_cons, if_pos hp]
      unfold mapGet
      rw [List.find?_cons_of_pos _ (by simp)]
      rfl
    · by_cases hm : m.any (fun q => q.1 = k)
      · rw [if_pos (by simp [hm])]
        simp only [List.map_cons, if_neg hp]
        rw [if_pos hm] at ih
        unfold mapGet at ih ⊢
        rw [List.find?_cons_of_neg _ (by simp [hp])]
        exact ih
      · rw [if_neg (by simp [hp, hm])]
        rw [if_neg hm] at ih
        unfold mapGet at ih ⊢
        rw [List.cons_append, List.find?_cons_of_neg _ (by simp [hp])]
        exact ih

theorem mapGet_mapDelete_self (k : Str) (m : List (Str × CacheEntry)) :
    mapGet k (mapDelete k m) = none := by
  induction m with
  | nil => rfl
  | cons p m ih =>
    unfold mapDelete at ih ⊢
    by_cases hp : p.1 = k
    · rw [List.filter_cons_of_neg (by simp [hp])]
      exact ih
    · rw [List.filter_cons_of_pos (by simp [hp])]
      unfold mapGet at ih ⊢
      rw [List.find?_cons_of_neg _ (by simp [hp])]
      exact ih

/-- C2 counterexample: with a failing directory creation the constructor
still completes — load catches the error and reports it through emitError,
so nothing propagates to the caller and construction is not aborted. -/
theorem C2_init_propagation_cex :
    constructorResult .mkdirFails 0 true =
      .ok ⟨[], [], ⟨0, 0, 0, 0, 1⟩, [.errorEv "initialization" none], true⟩ ∧
    ¬ ∃ e, constructorResult .mkdirFails 0 true = .error e := by
  refine ⟨rfl, ?_⟩
  rintro ⟨e, h⟩
  simp [constructorResult] at h

/-- C2 (amended): no error kind escapes initialization.  Construction
always completes: on a readable directory it yields the reconciled state,
and when the cache directory cannot be created or inspected the failure is
reported via the error channel (errors counter set to 1, error event
emitted exactly when a listener is registered) and the constructor returns
a state with an empty index. -/
theorem C2_init_no_propagation (now : Nat) (b : Bool) :
    (∀ files, ∃ s, constructorResult (.ok files) now b = .ok s) ∧
    (∃ s, constructorResult .mkdirFails now b = .ok s ∧ s.cache = [] ∧
      s.stats.errors = 1 ∧
      s.events = (if b then [Event.errorEv "initialization" none] else [])) ∧
    (∃ s, constructorResult .readdirFails now b = .ok s ∧ s.cache = [] ∧
      s.stats.errors = 1) := by
  cases b <;>
    exact ⟨fun files => ⟨_, rfl⟩, ⟨_, rfl, rfl, rfl, rfl⟩, ⟨_, rfl, rfl, rfl⟩⟩

/-- C3 (amended): every public operation short-circuits on a key rejected
by the validator, returning its normal failure value (false for mutations,
null for reads), touching neither the index nor the files, and never
throwing (every modelled operation is total); has, get, set, getAsync and
setAsync report the rejection through emitError, but delete and
deleteAsync return false with the state entirely unchanged and no error
report. -/
theorem C3_invalid_key {V : Type} (cfg : Config) (env : SerEnv V) (s : CacheState)
    (now : Nat) (key : Str) (value : V) (ttl : Option Nat)
    (hk : validateKey key = false) :
    hasOp s now key = (false, emitError s "has" (some key)) ∧
    getOp env s now key = (none, emitError s "get" (some key)) ∧
    setOp cfg env s now key value ttl = (false, emitError s "set" (some key)) ∧
    deleteOp s key = (false, s) ∧
    getAsyncOp env s now key = (none, emitError s "getAsync" (some key)) ∧
    setAsyncOp cfg env s now key value ttl = (false, emitError s "setAsync" (some key)) ∧
    deleteAsyncOp s key = (false, s) ∧
    (∀ op k2, (emitError s op k2).cache = s.cache ∧
      (emitError s op k2).files = s.files ∧
      (emitError s op k2).stats.errors = s.stats.errors + 1) := by
  refine ⟨?_, ?_, ?_, ?_, ?_, ?_, ?_, fun op k2 =>
    ⟨emitError_cache s op k2, emitError_files s op k2, emitError_errors s op k2⟩⟩
  · unfold hasOp; rw [if_pos hk]
  · unfold getOp; rw [if_pos hk]
  · unfold setOp; rw [if_pos hk]
  · unfold deleteOp; rw [if_pos hk]
  · unfold getAsyncOp; rw [if_pos hk]
  · unfold setAsyncOp; rw [if_pos hk]
  · unfold deleteAsyncOp; rw [if_pos hk]

/-- C3 counterexample: delete applied to the invalid empty key returns
false but leaves the state untouched even with an error listener
registered — the errors counter stays 0 and no error event is emitted, so
delete does not report invalid keys via the error channel. -/
theorem C3_invalid_key_cex :
    validateKey [] = false ∧
    deleteOp (initState true) [] = (false, initState true) ∧
    (initState true).stats.errors = 0 ∧ (initState true).events = [] := by
  decide

/-- Witness for C3: the amended theorem applied to the invalid key `/`. -/
theorem C3_invalid_key_witness :
    validateKey ['/'] = false ∧
    (hasOp (initState true) 0 ['/'] = (false, emitError (initState true) "has" (some ['/'])) ∧
     getOp envU (initState true) 0 ['/'] =
       (none, emitError (initState true) "get" (some ['/'])) ∧
     setOp Config.mk0 envU (initState true) 0 ['/'] () none =
       (false, emitError (initState true) "set" (some ['/'])) ∧
     deleteOp (initState true) ['/'] = (false, initState true) ∧
     getAsyncOp envU (initState true) 0 ['/'] =
       (none, emitError (initState true) "getAsync" (some ['/'])) ∧
     setAsyncOp Config.mk0 envU (initState true) 0 ['/'] () none =
       (false, emitError (initState true) "setAsync" (some ['/'])) ∧
     deleteAsyncOp (initState true) ['/'] = (false, initState true) ∧
     (∀ op k2, (emitError (initState true) op k2).cache = (initState true).cache ∧
       (emitError (initState true) op k2).files = (initState true).files ∧
       (emitError (initState true) op k2).stats.errors =
         (initState true).stats.errors + 1)) :=
  ⟨by decide, C3_invalid_key Config.mk0 envU (initState true) 0 ['/'] () none (by decide)⟩

/-- C6: a value whose serialized UTF-8 size exceeds maxFileSize makes set
fail before any disk write: it returns false with the error reported, no
file is written, no index entry is created and the previous state of both
index and directory (including any existing entry for the key) is kept. -/
theorem C6_size_limit {V : Type} (cfg : Config) (env : SerEnv V) (s : CacheState)
    (now : Nat) (key : Str) (value : V) (ttl : Option Nat) (str : Str)
    (hk : validateKey key = true)
    (hser : env.stringify value = some str)
    (hbig : cfg.maxFileSize < utf8Length str) :
    setOp cfg env s now key value ttl = (false, emitError s "set" (some key)) ∧
    (setOp cfg env s now key value ttl).2.cache = s.cache ∧
    (setOp cfg env s now key value ttl).2.files = s.files ∧
    (setOp cfg env s now key value ttl).2.stats.errors = s.stats.errors + 1 := by
  have hserr : serialize cfg env value = .error .sizeLimit := by
    unfold serialize
    simp only [hser]
    rw [if_pos hbig]
  have h1 : setOp cfg env s now key value ttl = (false, emitError s "set" (some key)) := by
    unfold setOp
    rw [if_neg (by simp [hk]), hserr]
  exact ⟨h1, by rw [h1]; exact emitError_cache s _ _,
    by rw [h1]; exact emitError_files s _ _,
    by rw [h1]; exact emitError_errors s _ _⟩

/-- Witness for C6: a three-byte encoding against a two-byte maxFileSize. -/
theorem C6_size_limit_witness :
    validateKey ['k'] = true ∧
    (⟨fun _ => some ['a', 'b', 'c'], fun _ => some (), fun _ => none, fun _ => none⟩ :
      SerEnv Unit).stringify () = some ['a', 'b', 'c'] ∧
    (⟨false, 1024, none, 2, 0⟩ : Config).maxFileSize < utf8Length ['a', 'b', 'c'] ∧
    (setOp ⟨false, 1024, none, 2, 0⟩
        ⟨fun _ => some ['a', 'b', 'c'], fun _ => some (), fun _ => none, fun _ => none⟩
        (initState true) 0 ['k'] () none =
      (false, emitError (initState true) "set" (some ['k'])) ∧
     (setOp ⟨false, 1024, none, 2, 0⟩
        ⟨fun _ => some ['a', 'b', 'c'], fun _ => some (), fun _ => none, fun _ => none⟩
        (initState true) 0 ['k'] () none).2.cache = (initState true).cache ∧
     (setOp ⟨false, 1024, none, 2, 0⟩
        ⟨fun _ => some ['a', 'b', 'c'], fun _ => some (), fun _ => none, fun _ => none⟩
        (initState true) 0 ['k'] () none).2.files = (initState true).files ∧
     (setOp ⟨false, 1024, none, 2, 0⟩
        ⟨fun _ => some ['a', 'b', 'c'], fun _ => some (), fun _ => none, fun _ => none⟩
        (initState true) 0 ['k'] () none).2.stats.errors =
       (initState true).stats.errors + 1) :=
  ⟨by decide, rfl, by decide,
    C6_size_limit ⟨false, 1024, none, 2, 0⟩
      ⟨fun _ => some ['a', 'b', 'c'], fun _ => some (), fun _ => none, fun _ => none⟩
      (initState true) 0 ['k'] () none ['a', 'b', 'c'] (by decide) rfl (by decide)⟩

/-- C9: serialize attempts compression only when compression is enabled and
the UTF-8 encoded size strictly exceeds the threshold, and it adopts the
compressed form only when the stored compressed representation is strictly
smaller than the uncompressed text (JS string lengths, as the source
compares); in every other case — including every encoding at or below the
threshold — the uncompressed text is stored verbatim with its byte size. -/
theorem C9_compression_policy {V : Type} (cfg : Config) (env : SerEnv V) (value : V)
    (str : Str) (r : Serialized)
    (hser : env.stringify value = some str)
    (hok : serialize cfg env value = .ok r) :
    (r.compressed = true →
      cfg.enableCompression = true ∧ cfg.compressionThreshold < utf8Length str ∧
      ∃ b64, env.gzipB64 str = some b64 ∧ jsLength b64 < jsLength str ∧
        r.data = b64 ∧ r.size = jsLength b64) ∧
    (r.compressed = false → r.data = str ∧ r.size = utf8Length str) ∧
    (utf8Length str ≤ cfg.compressionThreshold → r.compressed = false) := by
  unfold serialize at hok
  simp only [hser] at hok
  by_cases hsize : cfg.maxFileSize < utf8Length str
  · rw [if_pos hsize] at hok
    exact absurd hok (by simp)
  · rw [if_neg hsize] at hok
    by_cases hcomp : (cfg.enableCompression &&
        decide (cfg.compressionThreshold < utf8Length str)) = true
    · rw [if_pos hcomp] at hok
      rw [Bool.and_eq_true, decide_eq_true_eq] at hcomp
      split at hok
      next b64 hgz =>
        by_cases hless : jsLength b64 < jsLength str
        · rw [if_pos hless] at hok
          cases hok
          exact ⟨(fun _ => ⟨hcomp.1, hcomp.2, b64, hgz, hless, rfl, rfl⟩),
            (fun h => nomatch h), (fun h => absurd hcomp.2 (by omega))⟩
        · rw [if_neg hless] at hok
          cases hok
          exact ⟨(fun h => nomatch h), (fun _ => ⟨rfl, rfl⟩), (fun _ => rfl)⟩
      next hgz =>
        cases hok
        exact ⟨(fun h => nomatch h), (fun _ => ⟨rfl, rfl⟩), (fun _ => rfl)⟩
    · rw [if_neg hcomp] at hok
      cases hok
      exact ⟨(fun h => nomatch h), (fun _ => ⟨rfl, rfl⟩), (fun _ => rfl)⟩

/-- Witness for C9: compression enabled with threshold 1, a three-byte
encoding and a one-character compressed form, which is adopted. -/
theorem C9_compression_policy_witness :
    (⟨fun _ => some ['a', 'b', 'c'], fun _ => some (), fun _ => some ['z'],
        fun _ => none⟩ : SerEnv Unit).stringify () = some ['a', 'b', 'c'] ∧
    serialize ⟨true, 1, none, 100, 0⟩
      (⟨fun _ => some ['a', 'b', 'c'], fun _ => some (), fun _ => some ['z'],
        fun _ => none⟩ : SerEnv Unit) () = .ok ⟨['z'], true, 1⟩ ∧
    (((⟨['z'], true, 1⟩ : Serialized).compressed = true →
      (⟨true, 1, none, 100, 0⟩ : Config).enableCompression = true ∧
      (⟨true, 1, none, 100, 0⟩ : Config).compressionThreshold <
        utf8Length ['a', 'b', 'c'] ∧
      ∃ b64, (⟨fun _ => some ['a', 'b', 'c'], fun _ => some (), fun _ => some ['z'],
          fun _ => none⟩ : SerEnv Unit).gzipB64 ['a', 'b', 'c'] = some b64 ∧
        jsLength b64 < jsLength ['a', 'b', 'c'] ∧
        (⟨['z'], true, 1⟩ : Serialized).data = b64 ∧
        (⟨['z'], true, 1⟩ : Serialized).size = jsLength b64) ∧
    ((⟨['z'], true, 1⟩ : Serialized).compressed = false →
      (⟨['z'], true, 1⟩ : Serialized).data = ['a', 'b', 'c'] ∧
      (⟨['z'], true, 1⟩ : Serialized).size = utf8Length ['a', 'b', 'c']) ∧
    (utf8Length ['a', 'b', 'c'] ≤ (⟨true, 1, none, 100, 0⟩ : Config).compressionThreshold →
      (⟨['z'], true, 1⟩ : Serialized).compressed = false)) :=
  ⟨rfl, rfl,
    C9_compression_policy ⟨true, 1, none, 100, 0⟩
      ⟨fun _ => some ['a', 'b', 'c'], fun _ => some (), fun _ => some ['z'], fun _ => none⟩
      () ['a', 'b', 'c'] ⟨['z'], true, 1⟩ rfl rfl⟩

theorem overMaxSize_zero (cfg : Config) : overMaxSize cfg 0 = false := by
  unfold overMaxSize
  cases cfg.maxSize <;> simp

/-- C10: the public cleanup trigger always returns 0 in its expired field
and the net decrease of the index entry count in its removed field; in
particular a pass over a single expired (valid-key) entry removes it and
reports it through removed = 1 with expired still 0, so expirations are
never reported in the expired field of the return value. -/
theorem C10_cleanup_returns (cfg : Config) (s s1 : CacheState) (now : Nat)
    (k : Str) (e : CacheEntry)
    (hk : validateKey k = true) (hc : s1.cache = [(k, e)])
    (hex : isExpired e now = true) :
    ((cleanupOp cfg s now).1.expired = 0 ∧
     (cleanupOp cfg s now).1.removed =
       s.cache.length - (cleanupOp cfg s now).2.cache.length) ∧
    ((cleanupOp cfg s1 now).1.expired = 0 ∧
     (cleanupOp cfg s1 now).1.removed = 1 ∧
     (cleanupOp cfg s1 now).2.cache = []) := by
  constructor
  · exact ⟨rfl, rfl⟩
  · have hdel : (deleteOp s1 k).2.cache = [] ∧ (deleteOp s1 k).2.events =
        s1.events ++ [.change "delete" k] := by
      unfold deleteOp
      rw [if_neg (by simp [hk])]
      have hget : mapGet k s1.cache = some e := by
        rw [hc]
        unfold mapGet
        rw [List.find?_cons_of_pos _ (by simp)]
        rfl
      simp only [hget]
      constructor
      · show mapDelete k s1.cache = []
        rw [hc]
        unfold mapDelete
        rw [List.filter_cons_of_neg (by simp)]
        rfl
      · trivial
    have hexp : expirePass s1 now =
        ({ (deleteOp s1 k).2 with events := (deleteOp s1 k).2.events ++ [.expire k e.ttl] }, 1) := by
      unfold expirePass
      rw [hc]
      simp [hex]
    simp [cleanupOp, performCleanup, hexp, lruPass, overMaxSize_zero, hdel.1, hc]

/-- Witness for C10: a singleton index whose entry expired at 5, cleaned at
time 10. -/
theorem C10_cleanup_returns_witness :
    validateKey ['k'] = true ∧
    (⟨[(['k'], ⟨5, false, 1, 0, 0⟩)], [], Stats.init, [], true⟩ : CacheState).cache =
      [(['k'], ⟨5, false, 1, 0, 0⟩)] ∧
    isExpired ⟨5, false, 1, 0, 0⟩ 10 = true ∧
    (((cleanupOp Config.mk0 (initState true) 10).1.expired = 0 ∧
      (cleanupOp Config.mk0 (initState true) 10).1.removed =
        (initState true).cache.length -
          (cleanupOp Config.mk0 (initState true) 10).2.cache.length) ∧
     ((cleanupOp Config.mk0
        ⟨[(['k'], ⟨5, false, 1, 0, 0⟩)], [], Stats.init, [], true⟩ 10).1.expired = 0 ∧
      (cleanupOp Config.mk0
        ⟨[(['k'], ⟨5, false, 1, 0, 0⟩)], [], Stats.init, [], true⟩ 10).1.removed = 1 ∧
      (cleanupOp Config.mk0
        ⟨[(['k'], ⟨5, false, 1, 0, 0⟩)], [], Stats.init, [], true⟩ 10).2.cache = [])) :=
  ⟨by decide, rfl, by decide,
    C10_cleanup_returns Config.mk0 (initState true)
      ⟨[(['k'], ⟨5, false, 1, 0, 0⟩)], [], Stats.init, [], true⟩ 10 ['k']
      ⟨5, false, 1, 0, 0⟩ (by decide) rfl (by decide)⟩

/-- C4: a successful set stores as absolute expiry the value
`effectiveTTL == 0 ? 0 : now + effectiveTTL` where effectiveTTL is the ttl
argument defaulted to defaultTTL; hence a ttl argument of 0, or an omitted
ttl with defaultTTL 0, stores the never-expires sentinel 0, and the expiry
test is false at every time.  (maxSize is taken as unset so that the
freshly stored entry is not immediately evicted by the cleanup pass.) -/
theorem C4_set_expiry {V : Type} (cfg : Config) (env : SerEnv V) (s : CacheState)
    (now : Nat) (key : Str) (value : V) (ttl : Option Nat) (ser : Serialized)
    (hk : validateKey key = true)
    (hok : serialize cfg env value = .ok ser)
    (hmax : cfg.maxSize = none) :
    (setOp cfg env s now key value ttl).1 = true ∧
    ∃ e, mapGet key (setOp cfg env s now key value ttl).2.cache = some e ∧
      e.ttl = (if ttl.getD cfg.defaultTTL = 0 then 0
               else now + ttl.getD cfg.defaultTTL) ∧
      ((ttl = some 0 ∨ (ttl = none ∧ cfg.defaultTTL = 0)) →
        e.ttl = 0 ∧ ∀ t : Nat, isExpired e t = false) := by
  have hov : ∀ n, overMaxSize cfg n = false := fun n => by
    unfold overMaxSize
    rw [hmax]
  unfold setOp
  rw [if_neg (by simp [hk]), hok]
  simp only [hov, if_false, Bool.false_eq_true]
  refine ⟨trivial, _, mapGet_mapSet_self key _ _, rfl, ?_⟩
  intro h
  have heff : ttl.getD cfg.defaultTTL = 0 := by
    rcases h with rfl | ⟨rfl, h0⟩
    · rfl
    · simpa using h0
  rw [heff]
  exact ⟨by simp, fun t => by simp [isExpired]⟩

/-- Witness for C4: set with ttl 0 at time 10 stores expiry 0 and the
entry never expires. -/
theorem C4_set_expiry_witness :
    validateKey ['k'] = true ∧
    serialize Config.mk0 envU () = .ok ⟨['x'], false, 1⟩ ∧
    Config.mk0.maxSize = none ∧
    ((setOp Config.mk0 envU (initState true) 10 ['k'] () (some 0)).1 = true ∧
     ∃ e, mapGet ['k']
        (setOp Config.mk0 envU (initState true) 10 ['k'] () (some 0)).2.cache = some e ∧
       e.ttl = (if (some 0 : Option Nat).getD Config.mk0.defaultTTL = 0 then 0
                else 10 + (some 0 : Option Nat).getD Config.mk0.defaultTTL) ∧
       (((some 0 : Option Nat) = some 0 ∨
          ((some 0 : Option Nat) = none ∧ Config.mk0.defaultTTL = 0)) →
         e.ttl = 0 ∧ ∀ t : Nat, isExpired e t = false)) :=
  ⟨by decide, rfl, rfl,
    C4_set_expiry Config.mk0 envU (initState true) 10 ['k'] () (some 0)
      ⟨['x'], false, 1⟩ (by decide) rfl rfl⟩

/-- C7: when the key is present and unexpired in the index but its backing
file is missing, get purges the index entry (repairing invariant I2),
counts a miss and returns null, with no error reported: the errors counter
and the event log are untouched. -/
theorem C7_missing_file {V : Type} (env : SerEnv V) (s : CacheState) (now : Nat)
    (key : Str) (entry : CacheEntry)
    (hk : validateKey key = true)
    (he : mapGet key s.cache = some entry)
    (hexp : isExpired entry now = false)
    (hf : fsRead (generateFileName key entry.ttl entry.compressed) s.files = none) :
    getOp env s now key =
      (none, { s with cache := mapDelete key s.cache,
                      stats := { s.stats with misses := s.stats.misses + 1 } }) ∧
    mapGet key (getOp env s now key).2.cache = none ∧
    (getOp env s now key).2.stats.errors = s.stats.errors ∧
    (getOp env s now key).2.events = s.events ∧
    (getOp env s now key).2.files = s.files := by
  have h1 : getOp env s now key =
      (none, { s with cache := mapDelete key s.cache,
                      stats := { s.stats with misses := s.stats.misses + 1 } }) := by
    unfold getOp
    rw [if_neg (by simp [hk])]
    simp only [he]
    rw [if_neg (by simp [hexp])]
    simp only [hf]
  refine ⟨h1, ?_, ?_, ?_, ?_⟩
  · rw [h1]
    exact mapGet_mapDelete_self key s.cache
  · rw [h1]
  · rw [h1]
  · rw [h1]

/-- A singleton index over an empty directory, for the C7 witness. -/
def missFileState : CacheState :=
  ⟨[(['k'], ⟨0, false, 1, 0, 0⟩)], [], Stats.init, [], true⟩

/-- Witness for C7: a singleton index over an empty directory. -/
theorem C7_missing_file_witness :
    validateKey ['k'] = true ∧
    mapGet ['k'] missFileState.cache = some ⟨0, false, 1, 0, 0⟩ ∧
    isExpired ⟨0, false, 1, 0, 0⟩ 5 = false ∧
    fsRead (generateFileName ['k'] (0 : Nat) false) missFileState.files = none ∧
    (getOp envU missFileState 5 ['k'] =
      (none, { missFileState with
        cache := mapDelete ['k'] missFileState.cache,
        stats := { missFileState.stats with
          misses := missFileState.stats.misses + 1 } }) ∧
     mapGet ['k'] (getOp envU missFileState 5 ['k']).2.cache = none ∧
     (getOp envU missFileState 5 ['k']).2.stats.errors =
       missFileState.stats.errors ∧
     (getOp envU missFileState 5 ['k']).2.events = missFileState.events ∧
     (getOp envU missFileState 5 ['k']).2.files = missFileState.files) :=
  ⟨by decide, rfl, by decide, rfl,
    C7_missing_file envU missFileState 5 ['k'] ⟨0, false, 1, 0, 0⟩
      (by decide) rfl (by decide) rfl⟩

/-- C8: when the backing file is present but its payload fails to
deserialize, get reports the error (errors counter and error event), counts
a miss and returns null, while the index entry is left in place
untouched. -/
theorem C8_deserialize_failure {V : Type} (env : SerEnv V) (s : CacheState)
    (now : Nat) (key : Str) (entry : CacheEntry) (content : Str)
    (hk : validateKey key = true)
    (he : mapGet key s.cache = some entry)
    (hexp : isExpired entry now = false)
    (hf : fsRead (generateFileName key entry.ttl entry.compressed) s.files =
      some content)
    (hd : deserialize env content entry.compressed = none)
    (hl : s.hasErrorListener = true) :
    getOp env s now key =
      (none, { s with
        stats := { s.stats with misses := s.stats.misses + 1, errors := s.stats.errors + 1 },
        events := s.events ++ [.errorEv "get" (some key)] }) ∧
    (getOp env s now key).2.cache = s.cache ∧
    mapGet key (getOp env s now key).2.cache = some entry := by
  have hemit : emitError s "get" (some key) =
      { s with stats := { s.stats with errors := s.stats.errors + 1 },
               events := s.events ++ [.errorEv "get" (some key)] } := by
    unfold emitError
    simp [hl]
  have h1 : getOp env s now key =
      (none, { s with
        stats := { s.stats with misses := s.stats.misses + 1, errors := s.stats.errors + 1 },
        events := s.events ++ [.errorEv "get" (some key)] }) := by
    unfold getOp
    rw [if_neg (by simp [hk])]
    simp only [he]
    rw [if_neg (by simp [hexp])]
    simp only [hf, hd, hemit]
  refine ⟨h1, ?_, ?_⟩
  · rw [h1]
  · rw [h1]
    exact he

/-- A serialization environment over Unit whose decoder always fails,
modelling a corrupt payload, for the C8 witness. -/
def envBadParse : SerEnv Unit :=
  ⟨fun _ => some ['x'], fun _ => none, fun _ => none, fun _ => none⟩

/-- A singleton index whose backing file is present with one byte of
content, for the C8 witness. -/
def corruptState : CacheState :=
  ⟨[(['k'], ⟨0, false, 1, 0, 0⟩)], [(generateFileName ['k'] 0 false, ['x'])],
   Stats.init, [], true⟩

/-- Witness for C8: a present file whose payload the decoder rejects. -/
theorem C8_deserialize_failure_witness :
    validateKey ['k'] = true ∧
    mapGet ['k'] corruptState.cache = some ⟨0, false, 1, 0, 0⟩ ∧
    isExpired ⟨0, false, 1, 0, 0⟩ 5 = false ∧
    fsRead (generateFileName ['k'] (0 : Nat) false) corruptState.files =
      some ['x'] ∧
    deserialize envBadParse ['x'] false = none ∧
    corruptState.hasErrorListener = true ∧
    (getOp envBadParse corruptState 5 ['k'] =
      (none, { corruptState with
        stats := { corruptState.stats with
          misses := corruptState.stats.misses + 1,
          errors := corruptState.stats.errors + 1 },
        events := corruptState.events ++ [.errorEv "get" (some ['k'])] }) ∧
     (getOp envBadParse corruptState 5 ['k']).2.cache = corruptState.cache ∧
     mapGet ['k'] (getOp envBadParse corruptState 5 ['k']).2.cache =
       some ⟨0, false, 1, 0, 0⟩) :=
  ⟨by decide, rfl, by decide, rfl, rfl, rfl,
    C8_deserialize_failure envBadParse corruptState 5 ['k'] ⟨0, false, 1, 0, 0⟩
      ['x'] (by decide) rfl (by decide) rfl rfl rfl⟩

theorem generateFileName_inj_iff (k k2 : Str) (t : Nat) (c : Bool) :
    generateFileName k t c = generateFileName k2 t c ↔ k = k2 := by
  unfold generateFileName
  constructor
  · intro he
    exact List.append_cancel_right (List.append_cancel_right he)
  · intro h
    rw [h]

/-- Configuration with maxSize 2 and the constructor defaults otherwise,
for the LRU scenario. -/
def cfgLru : Config := ⟨false, 1024, some 2, 50 * 1024 * 1024, 0⟩

/-- The state reached from a fresh empty cache by the sequence set A at
time 0, set B at time 1, get A at time 2, set C at time 3 (all with no
per-call TTL under a zero default, so nothing expires). -/
def lruFinal (A B C : Str) : CacheState :=
  (setOp cfgLru envU
    ((getOp envU
      ((setOp cfgLru envU
        ((setOp cfgLru envU (initState true) 0 A () none).2)
        1 B () none).2)
      2 A).2)
    3 C () none).2

/-- C5: with maxSize 2, after set A, set B, get A (refreshing the recency
of A), set C on pairwise distinct valid keys, the key B has been evicted
while A and C remain: the cleanup pass triggered by the third set sorts the
entries by ascending accessed time and evicts the single
least-recently-accessed entry, which is B. -/
theorem C5_lru_eviction (A B C : Str)
    (hA : validateKey A = true) (hB : validateKey B = true)
    (hC : validateKey C = true)
    (hAB : A ≠ B) (hAC : A ≠ C) (hBC : B ≠ C) :
    (hasOp (lruFinal A B C) 4 B).1 = false ∧
    (hasOp (lruFinal A B C) 4 A).1 = true ∧
    (hasOp (lruFinal A B C) 4 C).1 = true := by
  have hBA := Ne.symm hAB
  have hCA := Ne.symm hAC
  have hCB := Ne.symm hBC
  have h1 : setOp cfgLru envU (initState true) 0 A () none =
      (true, ⟨[(A, ⟨0, false, 1, 0, 0⟩)], [(generateFileName A 0 false, ['x'])],
        ⟨0, 0, 1, 0, 0⟩, [.change "set" A], true⟩) := by
    simp [setOp, hA, serialize, envU, utf8Length, utf8Size, cfgLru, mapHas,
      mapSet, fsWrite, overMaxSize, initState, Stats.init]
  have h2 : setOp cfgLru envU
      (⟨[(A, ⟨0, false, 1, 0, 0⟩)], [(generateFileName A 0 false, ['x'])],
        ⟨0, 0, 1, 0, 0⟩, [.change "set" A], true⟩ : CacheState) 1 B () none =
      (true, ⟨[(A, ⟨0, false, 1, 0, 0⟩), (B, ⟨0, false, 1, 1, 1⟩)],
        [(generateFileName A 0 false, ['x']), (generateFileName B 0 false, ['x'])],
        ⟨0, 0, 2, 0, 0⟩, [.change "set" A, .change "set" B], true⟩) := by
    simp [setOp, hB, serialize, envU, utf8Length, utf8Size, cfgLru, mapHas,
      mapSet, fsWrite, overMaxSize, generateFileName_inj_iff, hAB, hBA]
  have h3 : getOp envU
      (⟨[(A, ⟨0, false, 1, 0, 0⟩), (B, ⟨0, false, 1, 1, 1⟩)],
        [(generateFileName A 0 false, ['x']), (generateFileName B 0 false, ['x'])],
        ⟨0, 0, 2, 0, 0⟩, [.change "set" A, .change "set" B], true⟩ : CacheState)
      2 A =
      (some (), ⟨[(A, ⟨0, false, 1, 0, 2⟩), (B, ⟨0, false, 1, 1, 1⟩)],
        [(generateFileName A 0 false, ['x']), (generateFileName B 0 false, ['x'])],
        ⟨1, 0, 2, 0, 0⟩, [.change "set" A, .change "set" B], true⟩) := by
    simp [getOp, hA, mapGet, mapSet, fsRead, isExpired, deserialize, envU,
      hBA]
  have h4 : setOp cfgLru envU
      (⟨[(A, ⟨0, false, 1, 0, 2⟩), (B, ⟨0, false, 1, 1, 1⟩)],
        [(generateFileName A 0 false, ['x']), (generateFileName B 0 false, ['x'])],
        ⟨1, 0, 2, 0, 0⟩, [.change "set" A, .change "set" B], true⟩ : CacheState)
      3 C () none =
      (true, ⟨[(A, ⟨0, false, 1, 0, 2⟩), (C, ⟨0, false, 1, 3, 3⟩)],
        [(generateFileName A 0 false, ['x']), (generateFileName C 0 false, ['x'])],
        ⟨1, 0, 3, 1, 0⟩,
        [.change "set" A, .change "set" B, .change "set" C,
         .change "delete" B, .cleanupEv 0 1], true⟩) := by
    simp [setOp, hB, hC, serialize, envU, utf8Length, utf8Size, cfgLru,
      mapHas, mapSet, mapGet, mapDelete, fsWrite, fsRead, fsExists, fsRemove,
      overMaxSize, performCleanup, expirePass, lruPass, sortByAccessed,
      insertByAccessed, isExpired, deleteOp, generateFileName_inj_iff,
      hAB, hBA, hAC, hCA, hBC, hCB]
  have hfin : lruFinal A B C =
      ⟨[(A, ⟨0, false, 1, 0, 2⟩), (C, ⟨0, false, 1, 3, 3⟩)],
        [(generateFileName A 0 false, ['x']), (generateFileName C 0 false, ['x'])],
        ⟨1, 0, 3, 1, 0⟩,
        [.change "set" A, .change "set" B, .change "set" C,
         .change "delete" B, .cleanupEv 0 1], true⟩ := by
    unfold lruFinal
    rw [h1]
    rw [show ((true, (⟨[(A, ⟨0, false, 1, 0, 0⟩)],
      [(generateFileName A 0 false, ['x'])], ⟨0, 0, 1, 0, 0⟩,
      [.change "set" A], true⟩ : CacheState)) : Bool × CacheState).2 =
      (⟨[(A, ⟨0, false, 1, 0, 0⟩)], [(generateFileName A 0 false, ['x'])],
        ⟨0, 0, 1, 0, 0⟩, [.change "set" A], true⟩ : CacheState) from rfl, h2]
    rw [show ((true, (⟨[(A, ⟨0, false, 1, 0, 0⟩), (B, ⟨0, false, 1, 1, 1⟩)],
      [(generateFileName A 0 false, ['x']), (generateFileName B 0 false, ['x'])],
      ⟨0, 0, 2, 0, 0⟩, [.change "set" A, .change "set" B], true⟩ : CacheState)) :
        Bool × CacheState).2 =
      (⟨[(A, ⟨0, false, 1, 0, 0⟩), (B, ⟨0, false, 1, 1, 1⟩)],
        [(generateFileName A 0 false, ['x']), (generateFileName B 0 false, ['x'])],
        ⟨0, 0, 2, 0, 0⟩, [.change "set" A, .change "set" B], true⟩ : CacheState)
      from rfl, h3]
    rw [show ((some (), (⟨[(A, ⟨0, false, 1, 0, 2⟩), (B, ⟨0, false, 1, 1, 1⟩)],
      [(generateFileName A 0 false, ['x']), (generateFileName B 0 false, ['x'])],
      ⟨1, 0, 2, 0, 0⟩, [.change "set" A, .change "set" B], true⟩ : CacheState)) :
        Option Unit × CacheState).2 =
      (⟨[(A, ⟨0, false, 1, 0, 2⟩), (B, ⟨0, false, 1, 1, 1⟩)],
        [(generateFileName A 0 false, ['x']), (generateFileName B 0 false, ['x'])],
        ⟨1, 0, 2, 0, 0⟩, [.change "set" A, .change "set" B], true⟩ : CacheState)
      from rfl, h4]
  rw [hfin]
  refine ⟨?_, ?_, ?_⟩
  · simp [hasOp, hB, mapGet, hAB, hBA, hCB]
  · simp [hasOp, hA, mapGet, isExpired]
  · simp [hasOp, hC, mapGet, isExpired, hCA, hAC]

/-- Witness for C5: the concrete keys A, B, C. -/
theorem C5_lru_eviction_witness :
    (hasOp (lruFinal ['A'] ['B'] ['C']) 4 ['B']).1 = false ∧
    (hasOp (lruFinal ['A'] ['B'] ['C']) 4 ['A']).1 = true ∧
    (hasOp (lruFinal ['A'] ['B'] ['C']) 4 ['C']).1 = true :=
  C5_lru_eviction ['A'] ['B'] ['C'] (by decide) (by decide) (by decide)
    (by decide) (by decide) (by decide)

end FsCachebox
